import Mathlib

/-!
Verification development for `clean-pedal-pricing.py`: a single-pass,
stateful row scanner that extracts a structured price ledger from an
irregular spreadsheet grid.  The Python source is shallowly embedded:
cell values become a closed variant type, `datetime` values become a
calendar-date structure compared lexicographically (as Python compares
`datetime`s), `timedelta(days=365)` becomes 365 applications of a
day-successor function, and the pandas assembly step becomes an
`Option`-returning function (`none` models the `KeyError` that
`pd.DataFrame([])['date']` raises when no records were extracted).
Numeric cells are modelled as integers; every price handled by the
program is exact integer arithmetic, so the `float` cast at record
assembly is the identity on this fragment.
-/

set_option maxRecDepth 4000

/-- A calendar date, as carried by a Python `datetime` at midnight
(the only time-of-day the program ever constructs or compares against). -/
structure Date where
  year : Nat
  month : Nat
  day : Nat
deriving DecidableEq, Repr

/-- Python `datetime` comparison: lexicographic on (year, month, day). -/
def dateLt (a b : Date) : Bool :=
  a.year < b.year ||
    (a.year == b.year &&
      (a.month < b.month || (a.month == b.month && a.day < b.day)))

/-- The fixed anchor date `datetime(2025, 7, 24)` of the source. -/
def anchorDate : Date := ⟨2025, 7, 24⟩

/-- Gregorian leap-year test (as in Python's `calendar`/`datetime`). -/
def isLeap (y : Nat) : Bool :=
  (y % 4 == 0 && y % 100 != 0) || (y % 400 == 0)

/-- Number of days in a month of a given year. -/
def daysInMonth (y m : Nat) : Nat :=
  if m == 2 then (if isLeap y then 29 else 28)
  else if m == 4 || m == 6 || m == 9 || m == 11 then 30
  else 31

/-- The day after a given date (Gregorian calendar successor). -/
def nextDay (d : Date) : Date :=
  if d.day < daysInMonth d.year d.month then ⟨d.year, d.month, d.day + 1⟩
  else if d.month < 12 then ⟨d.year, d.month + 1, 1⟩
  else ⟨d.year + 1, 1, 1⟩

/-- Proleptic-Gregorian day number (days since 0000-03-01), the standard
civil-calendar encoding behind Python's `date.toordinal`. -/
def ratadie (dt : Date) : Nat :=
  let y := if dt.month ≤ 2 then dt.year - 1 else dt.year
  let era := y / 400
  let yoe := y % 400
  let mp := if dt.month > 2 then dt.month - 3 else dt.month + 9
  let doy := (153 * mp + 2) / 5 + dt.day - 1
  era * 146097 + (yoe * 365 + yoe / 4 - yoe / 100 + doy)

/-- Inverse of `ratadie` (Python's `date.fromordinal`). -/
def fromRataDie (z : Nat) : Date :=
  let era := z / 146097
  let doe := z % 146097
  let yoe := (doe - doe / 1460 + doe / 36524 - doe / 146096) / 365
  let y := yoe + era * 400
  let doy := doe - (365 * yoe + yoe / 4 - yoe / 100)
  let mp := (5 * doy + 2) / 153
  let d := doy - (153 * mp + 2) / 5 + 1
  let m := if mp < 10 then mp + 3 else mp - 9
  ⟨if m ≤ 2 then y + 1 else y, m, d⟩

/-- `d + timedelta(days := n)`: shift the civil day number by `n`. -/
def addDays (d : Date) (n : Nat) : Date :=
  fromRataDie (ratadie d + n)

/-- A spreadsheet cell value: one of absent / numeric / text / date-like,
mirroring what `openpyxl` hands the scanner. -/
inductive Cell where
  | absent
  | num (n : Int)
  | text (s : String)
  | date (d : Date)
deriving DecidableEq, Repr

/-- Python truthiness of a cell value (`None`/`0`/`""` are falsy;
any `datetime` is truthy). -/
def truthy : Cell → Bool
  | Cell.absent => false
  | Cell.num n => n != 0
  | Cell.text s => !s.toList.isEmpty
  | Cell.date _ => true

/-- The string content of a text cell (`str(v)` is only applied by the
source at places guarded so that `v` is already a string). -/
def cellStr : Cell → String
  | Cell.text s => s
  | _ => ""

/-- The date carried by a date-like cell (only read under guards that
ensure the cell is date-like). -/
def dateOf : Cell → Date
  | Cell.date d => d
  | _ => anchorDate

/-- `is_date_value(value)`: true iff the runtime shape is a datetime. -/
def is_date_value : Cell → Bool
  | Cell.date _ => true
  | _ => false

/-- `is_valid_price(value)`: `None` is invalid; a date strictly before
the anchor 2025-07-24 is presumed a miscoded price (valid); a number is
valid iff `0 < value < 10000`; anything else is invalid. -/
def is_valid_price (v : Cell) : Bool :=
  match v with
  | Cell.absent => false
  | Cell.date d => if dateLt d anchorDate then true else false
  | Cell.num n => decide (0 < n) && decide (n < 10000)
  | Cell.text _ => false

/-- `convert_date_to_price(value)`: a date before the anchor yields its
day-of-month as the recovered price; any other value is returned
unchanged. -/
def convert_date_to_price (v : Cell) : Cell :=
  if is_date_value v && dateLt (dateOf v) anchorDate then
    Cell.num (dateOf v).day
  else
    v

/-! String primitives mirroring the Python `str` methods the scanner
uses, implemented by structural recursion on the character list so that
they reduce in the kernel. -/

/-- Drop leading whitespace characters. -/
def dropWs : List Char → List Char
  | [] => []
  | c :: t => if c.isWhitespace then dropWs t else c :: t

/-- Python `str.strip()`: remove leading and trailing whitespace. -/
def pyStrip (s : String) : String :=
  String.mk ((dropWs ((dropWs s.toList).reverse)).reverse)

/-- Python `str.lower()` (ASCII fragment, which covers every string the
program compares). -/
def pyLower (s : String) : String :=
  String.mk (s.toList.map Char.toLower)

/-- Python `str.endswith('.')`. -/
def endsWithDot (s : String) : Bool :=
  match s.toList.getLast? with
  | some c => c == '.'
  | none => false

/-- Does the first list appear at the head of the second? -/
def leadsWith : List Char → List Char → Bool
  | [], _ => true
  | _ :: _, [] => false
  | a :: as, b :: bs => a == b && leadsWith as bs

/-- Does `needle` occur inside `hay`? -/
def hasSubList (needle : List Char) : List Char → Bool
  | [] => needle.isEmpty
  | c :: t => leadsWith needle (c :: t) || hasSubList needle t

/-- Python `needle in hay` on strings. -/
def strHas (hay needle : String) : Bool :=
  hasSubList needle.toList hay.toList

/-- Python `any(keyword in s for keyword in kws)`. -/
def hasAnyKeyword (s : String) (kws : List String) : Bool :=
  kws.any (fun k => strHas s k)

/-- Split accumulator for `pySplit`; `cur` holds the current word
reversed. -/
def wordsAux : List Char → List Char → List String
  | [], cur => if cur.isEmpty then [] else [String.mk cur.reverse]
  | c :: rest, cur =>
    if c.isWhitespace then
      if cur.isEmpty then wordsAux rest []
      else String.mk cur.reverse :: wordsAux rest []
    else wordsAux rest (c :: cur)

/-- Python `str.split()`: split on whitespace runs, no empty words. -/
def pySplit (s : String) : List String :=
  wordsAux s.toList []

/-- Python `word and word[0].isupper()`: nonempty and the first
character is an uppercase letter. -/
def startsUpper (w : String) : Bool :=
  match w.toList with
  | [] => false
  | c :: _ => c.isUpper

/-- Python `any(c.isdigit() for c in s)`. -/
def hasDigit (s : String) : Bool :=
  s.toList.any Char.isDigit

/-- Python `any(c.isalpha() for c in s)`. -/
def hasAlpha (s : String) : Bool :=
  s.toList.any Char.isAlpha

example : pyStrip "  Mike Jones " = "Mike Jones" := by decide
example : pySplit " Mike  Jones" = ["Mike", "Jones"] := by decide
example : strHas "mxr micro amp" "mxr " = true := by decide
example : strHas "mike jones" "ray" = false := by decide

/-- The `skip_keywords` denylist of `is_person_name_simple`. -/
def person_skip_keywords : List String :=
  ["total", "fmv", "$20 less", "pedal", "label", "needs", "for lot",
   "payout", "boss ", "mxr ", "tc electronic", "digitech ", "ibanez ",
   "reverb", "delay", "overdrive", "distortion", "fuzz", "chorus",
   "flanger", "compressor", "looper", "wah", "boost", "tremolo",
   "preamp", "squeezer", "gold", "ridge", "ray", "mjolnir",
   "vemuram", "neunaber", "illumine", "xotic", "kernom", "mythos",
   "eqd", "wd orange", "jan ray", "acapulco", "bb preamp"]

/-- The `common_first_names` token list of `is_person_name_simple`
(verbatim from the source, duplicates included). -/
def common_first_names : List String :=
  ["michael", "david", "james", "john", "robert", "william", "richard",
   "thomas", "christopher", "daniel", "matthew", "joseph", "anthony",
   "donald", "mark", "paul", "steven", "andrew", "kenneth", "joshua",
   "kevin", "brian", "george", "edward", "ronald", "timothy", "jason",
   "jeffrey", "ryan", "jacob", "gary", "nicholas", "eric", "jonathan",
   "stephen", "larry", "justin", "scott", "brandon", "frank", "benjamin",
   "gregory", "raymond", "samuel", "patrick", "alexander", "jack", "dennis",
   "jerry", "tyler", "aaron", "jose", "adam", "henry", "nathan", "douglas",
   "zachary", "peter", "kyle", "walter", "ethan", "jeremy", "harold",
   "keith", "christian", "roger", "noah", "gerald", "carl", "terry", "sean",
   "austin", "arthur", "lawrence", "jesse", "dylan", "bryan", "joe", "jordan",
   "billy", "bruce", "albert", "willie", "gabriel", "logan", "alan", "juan",
   "wayne", "roy", "ralph", "randy", "eugene", "vincent", "russell", "elijah",
   "louis", "bobby", "philip", "johnny", "bradley", "neil", "andre", "jean",
   "rob", "steve", "oliver", "jimmy", "martin", "dave", "matt", "chris",
   "mike", "bill", "bob", "tom", "dan", "jim", "tony", "pablo", "joey",
   "stefan", "salvatore", "jimi", "damon", "adam", "jake", "oliver",
   "vince", "brett", "joshua", "jamie", "sean", "dennis", "doug", "george",
   "william", "tracy", "adan", "mitchell", "daryl", "guy", "edward", "jerry",
   "paul", "jean-claude", "gandhi", "randy", "chris", "mike"]

/-- The `brand_indicators` denylist of `is_person_name_simple`. -/
def brand_indicators : List String :=
  ["micro", "mini", "super", "ultra", "pro", "deluxe", "king", "master",
   "special", "custom", "classic", "vintage", "mk", "v1", "v2", "v3", "v4"]

/-- `is_person_name_simple(value)`: the cascaded person-name heuristic,
each early `return False` of the source in order.  The stripped value is
re-used throughout, exactly as the source rebinds `value`. -/
def is_person_name_simple (v : Cell) : Bool :=
  match v with
  | Cell.text s0 =>
    let s := pyStrip s0
    if s.length < 5 then false
    else if endsWithDot s then false
    else if s.toList.contains ':' then false
    else if hasAnyKeyword (pyLower s) person_skip_keywords then false
    else if (pySplit s).length < 2 || (pySplit s).length > 4 then false
    else if !((pySplit s).all startsUpper) then false
    else if hasDigit s then false
    else if s.length > 60 then false
    else if common_first_names.contains (pyLower ((pySplit s).headD "")) then true
    else if hasAnyKeyword (pyLower s) brand_indicators then false
    else false
  | _ => false

/-- The `skip_keywords` denylist of `is_pedal_name`. -/
def pedal_skip_keywords : List String :=
  ["total", "fmv", "$20 less", "label", "needs", "for lot", "payout"]

/-- The `pedal_indicators` keyword list of `is_pedal_name`. -/
def pedal_indicators : List String :=
  ["pedal", "reverb", "delay", "overdrive", "distortion", "fuzz",
   "chorus", "flanger", "wah", "boost", "compressor", "looper",
   "boss", "mxr", "tc electronic", "digitech", "ibanez",
   "dunlop", "walrus", "eqd", "keeley", "jhs", "wampler",
   "line 6", "behringer", "mooer", "pigtronix", "earthquaker"]

/-- `is_pedal_name(value)`: denylist rejection, then gear-keyword
acceptance, then the loose fallback (length > 5 with a letter). -/
def is_pedal_name (v : Cell) : Bool :=
  match v with
  | Cell.text s =>
    if hasAnyKeyword (pyLower s) pedal_skip_keywords then false
    else if hasAnyKeyword (pyLower s) pedal_indicators then true
    else if s.length > 5 && hasAlpha s then true
    else false
  | _ => false

example : is_person_name_simple (Cell.text "Mike Jones") = true := by decide
example : is_person_name_simple (Cell.text "Tube Screamer") = false := by decide
example : is_pedal_name (Cell.text "Tube Screamer") = true := by decide

example : is_valid_price (Cell.date ⟨2025, 7, 23⟩) = true := by decide
example : is_valid_price (Cell.date ⟨2025, 7, 24⟩) = false := by decide
example : is_valid_price (Cell.num 120) = true := by decide
example : convert_date_to_price (Cell.date ⟨1900, 3, 20⟩) = Cell.num 20 := by decide
example : convert_date_to_price (Cell.date ⟨2024, 11, 5⟩) = Cell.num 5 := by decide

/-! The scanner of `clean_spreadsheet`, embedded as a fold over rows. -/

/-- One spreadsheet row: the eight columns A..H the scanner reads. -/
structure Row where
  a : Cell := Cell.absent
  b : Cell := Cell.absent
  c : Cell := Cell.absent
  d : Cell := Cell.absent
  e : Cell := Cell.absent
  f : Cell := Cell.absent
  g : Cell := Cell.absent
  h : Cell := Cell.absent
deriving DecidableEq, Repr

/-- An entry of `cleaned_data`: the dict appended per extracted pair. -/
structure RawRecord where
  person : String
  pedal_name : String
  price : Int
  date : Date
deriving DecidableEq, Repr

/-- The scanner's mutable state across rows. -/
structure ScanState where
  current_person : Option String
  current_date : Option Date
  last_valid_date : Date
  records : List RawRecord
deriving DecidableEq, Repr

/-- `current_person if current_person else 'Unknown'` (Python
truthiness: an empty string also falls back to the sentinel). -/
def personOr : Option String → String
  | some p => if p.isEmpty then "Unknown" else p
  | none => "Unknown"

/-- `col_b and is_date_value(col_b) and col_b >= datetime(2025,7,24)`
(a datetime is always truthy, so truthiness adds nothing here). -/
def hasValidDate : Cell → Bool
  | Cell.date d => !dateLt d anchorDate
  | _ => false

/-- One price-column attempt: `is_valid_price` guard, recovery through
`convert_date_to_price`, then the still-a-date discard and the final
numeric `isinstance` check before appending. -/
def priceFrom (v : Cell) : Option Int :=
  if is_valid_price v then
    match convert_date_to_price v with
    | Cell.num n => some n
    | _ => none
  else none

/-- Primary price column first, secondary only when the primary
resolved nothing. -/
def firstPrice (primary secondary : Cell) : Option Int :=
  match priceFrom primary with
  | some p => some p
  | none => priceFrom secondary

/-- Candidate records one row contributes: the three fixed column
groups (A,B,C), (D,E,F), (F,G) and the independent column-H check,
all evaluated, their appends concatenated in source order. -/
def rowRecords (person : String) (cd : Date) (r : Row) : List RawRecord :=
  (if truthy r.a && is_pedal_name r.a then
    match firstPrice r.b r.c with
    | some p => [⟨person, pyStrip (cellStr r.a), p, cd⟩]
    | none => []
  else []) ++
  (if truthy r.d && is_pedal_name r.d then
    match firstPrice r.e r.f with
    | some p => [⟨person, pyStrip (cellStr r.d), p, cd⟩]
    | none => []
  else []) ++
  (if truthy r.f && is_pedal_name r.f then
    match priceFrom r.g with
    | some p => [⟨person, pyStrip (cellStr r.f), p, cd⟩]
    | none => []
  else []) ++
  (if truthy r.h then
    match priceFrom r.h with
    | some p =>
      if truthy r.a && is_pedal_name r.a then
        [⟨person, pyStrip (cellStr r.a), p, cd⟩]
      else if truthy r.d && is_pedal_name r.d then
        [⟨person, pyStrip (cellStr r.d), p, cd⟩]
      else []
    | none => []
  else [])

/-- The per-row transition of `clean_spreadsheet`'s loop body. -/
def processRow (s : ScanState) (r : Row) : ScanState :=
  let is_potential_person := truthy r.a && is_person_name_simple r.a
  if is_potential_person && hasValidDate r.b then
    { s with current_person := some (pyStrip (cellStr r.a)),
             current_date := some (dateOf r.b),
             last_valid_date := dateOf r.b }
  else if is_potential_person then
    { s with current_person := some (pyStrip (cellStr r.a)),
             current_date := some s.last_valid_date }
  else
    let cd := match s.current_date with
      | some d => d
      | none => s.last_valid_date
    { s with current_date := some cd,
             records := s.records ++ rowRecords (personOr s.current_person) cd r }

/-- The whole row loop. -/
def scanRows (s : ScanState) (rows : List Row) : ScanState :=
  rows.foldl processRow s

/-- The scanner's initial state: no person, no date,
`last_valid_date = datetime(2025, 7, 24)`. -/
def initialState : ScanState :=
  ⟨none, none, anchorDate, []⟩

/-- One row of the returned frame after column reordering:
`[pedal_name, price, date, expiration_date]` (person dropped). -/
structure OutputRecord where
  pedal_name : String
  price : Int
  date : String
  expiration_date : String
deriving DecidableEq, Repr

/-- Left-pad a number with zeros to a given width. -/
def padNum (w n : Nat) : String :=
  let s := toString n
  String.mk (List.replicate (w - s.length) '0') ++ s

/-- `strftime('%Y-%m-%d')`. -/
def formatDate (d : Date) : String :=
  padNum 4 d.year ++ "-" ++ padNum 2 d.month ++ "-" ++ padNum 2 d.day

/-- Assembly of one output row: expiration is the sale date plus
`timedelta(days=365)`, both rendered `YYYY-MM-DD`. -/
def assemble (r : RawRecord) : OutputRecord :=
  ⟨r.pedal_name, r.price, formatDate r.date, formatDate (addDays r.date 365)⟩

/-- `clean_spreadsheet`, from the scan onwards.  When no record was
extracted, `pd.DataFrame(cleaned_data)` has no columns at all and the
subsequent `df['date']` raises `KeyError`; that raising path is
modelled as `none`. -/
def clean_spreadsheet (rows : List Row) : Option (List OutputRecord) :=
  let data := (scanRows initialState rows).records
  if data.isEmpty then none
  else some (data.map assemble)

example :
    clean_spreadsheet
      [{ a := Cell.text "Mike Jones", b := Cell.date ⟨2025, 7, 25⟩ },
       { a := Cell.text "Tube Screamer", b := Cell.num 120 }] =
      some [⟨"Tube Screamer", 120, "2025-07-25", "2026-07-25"⟩] := by decide

example : clean_spreadsheet [] = none := by decide
example : addDays ⟨2025, 7, 25⟩ 365 = ⟨2026, 7, 25⟩ := by decide
example : addDays ⟨2024, 2, 28⟩ 1 = nextDay ⟨2024, 2, 28⟩ := by decide
example : addDays ⟨1900, 2, 28⟩ 1 = nextDay ⟨1900, 2, 28⟩ := by decide
example : addDays ⟨2025, 12, 31⟩ 1 = nextDay ⟨2025, 12, 31⟩ := by decide
example : addDays ⟨2000, 2, 29⟩ 1 = nextDay ⟨2000, 2, 29⟩ := by decide
example : addDays ⟨2024, 7, 25⟩ 365 = ⟨2025, 7, 25⟩ := by decide
example : addDays ⟨2023, 7, 25⟩ 365 = ⟨2024, 7, 24⟩ := by decide
example : addDays ⟨2100, 2, 28⟩ 1 = nextDay ⟨2100, 2, 28⟩ := by decide
example : addDays ⟨2025, 7, 31⟩ 1 = nextDay ⟨2025, 7, 31⟩ := by decide

/-! Spec-side reformulations and input-validity predicates used by the
claims below. -/

/-- The person-name predicate as the spec phrases it: one flat
conjunction — text, stripped length in [5, 60], no trailing period, no
colon, no denylisted substring, 2 to 4 words all starting with a capital
letter, no digit, and a recognized first name as the first word.  The
order of checks and the brand-modifier denylist do not appear. -/
def person_name_spec (v : Cell) : Bool :=
  match v with
  | Cell.text s0 =>
    let s := pyStrip s0
    decide (5 ≤ s.length) && decide (s.length ≤ 60)
      && !endsWithDot s
      && !(s.toList.contains ':')
      && !hasAnyKeyword (pyLower s) person_skip_keywords
      && decide (2 ≤ (pySplit s).length) && decide ((pySplit s).length ≤ 4)
      && (pySplit s).all startsUpper
      && !hasDigit s
      && common_first_names.contains (pyLower ((pySplit s).headD ""))
  | _ => false

/-- The pedal-name predicate as the spec phrases it: text, not
denylisted, and then either a gear keyword or the loose length/letter
fallback. -/
def pedal_name_spec (v : Cell) : Bool :=
  match v with
  | Cell.text s =>
    !hasAnyKeyword (pyLower s) pedal_skip_keywords
      && (hasAnyKeyword (pyLower s) pedal_indicators
          || (decide (s.length > 5) && hasAlpha s))
  | _ => false

/-- Day-of-month validity of a `datetime`: the constructor guarantees
month in [1,12] and day in [1, days-in-month]. -/
def validDate (d : Date) : Bool :=
  decide (1 ≤ d.month) && decide (d.month ≤ 12)
    && decide (1 ≤ d.day) && decide (d.day ≤ daysInMonth d.year d.month)

/-- Every date-like cell carries a constructible `datetime`. -/
def cellValid : Cell → Bool
  | Cell.date d => validDate d
  | _ => true

/-- All eight scanned cells of a row hold constructible values. -/
def rowValid (r : Row) : Bool :=
  cellValid r.a && cellValid r.b && cellValid r.c && cellValid r.d
    && cellValid r.e && cellValid r.f && cellValid r.g && cellValid r.h

/-- All rows of the grid hold constructible values. -/
def gridValid (rows : List Row) : Bool :=
  rows.all rowValid

/-! General lemmas about the embedding, shared by the claim theorems. -/

/-- From `¬ b = true` conclude `b = false`. -/
theorem bool_eq_false {b : Bool} (h : ¬ b = true) : b = false := by
  cases b
  · rfl
  · exact absurd rfl h

/-- A value accepted by the person heuristic is truthy text. -/
theorem person_truthy (v : Cell) (h : is_person_name_simple v = true) :
    truthy v = true := by
  cases v with
  | absent => simp [is_person_name_simple] at h
  | num n => simp [is_person_name_simple] at h
  | date d => simp [is_person_name_simple] at h
  | text s =>
    cases s with
    | mk data =>
      cases data with
      | nil => exact absurd h (by decide)
      | cons c cs => rfl

/-- A person row commits the stripped name, updates the dates, and
emits no records (helper for the scan state-machine claim). -/
theorem person_row_commit (s : ScanState) (r : Row) (h : is_person_name_simple r.a = true) :
    (processRow s r).records = s.records
      ∧ (processRow s r).current_person = some (pyStrip (cellStr r.a))
      ∧ (hasValidDate r.b = true →
          (processRow s r).current_date = some (dateOf r.b)
            ∧ (processRow s r).last_valid_date = dateOf r.b)
      ∧ (hasValidDate r.b = false →
          (processRow s r).current_date = some s.last_valid_date
            ∧ (processRow s r).last_valid_date = s.last_valid_date) := by
  have ht : truthy r.a = true := person_truthy r.a h
  cases hvd : hasValidDate r.b with
  | true =>
    have hb : processRow s r =
        { s with current_person := some (pyStrip (cellStr r.a)),
                 current_date := some (dateOf r.b),
                 last_valid_date := dateOf r.b } := by
      simp only [processRow, ht, h, hvd, Bool.and_self, Bool.true_and, if_true]
    rw [hb]
    exact ⟨rfl, rfl, fun _ => ⟨rfl, rfl⟩,
      fun hf => absurd hf (by decide)⟩
  | false =>
    have hb : processRow s r =
        { s with current_person := some (pyStrip (cellStr r.a)),
                 current_date := some s.last_valid_date } := by
      simp only [processRow, ht, h, hvd, Bool.and_self, Bool.true_and, Bool.and_false,
        if_true]
      exact if_neg (fun hc => Bool.noConfusion hc)
    rw [hb]
    exact ⟨rfl, rfl, fun hf => absurd hf (by decide),
      fun _ => ⟨rfl, rfl⟩⟩

theorem processRow_keeps_person (s : ScanState) (r : Row) (h : s.current_person.isSome = true) :
    (processRow s r).current_person.isSome = true := by
  simp only [processRow]
  split_ifs <;> simp [h]

theorem scanRows_keeps_person (s : ScanState) (rows : List Row) (h : s.current_person.isSome = true) :
    (scanRows s rows).current_person.isSome = true := by
  induction rows generalizing s with
  | nil => exact h
  | cons r t ih => exact ih (processRow s r) (processRow_keeps_person s r h)

theorem daysInMonth_le_31 (y m : Nat) : daysInMonth y m ≤ 31 := by
  unfold daysInMonth
  split_ifs <;> omega

theorem priceFrom_bounds (v : Cell) (hv : cellValid v = true) (p : Int)
    (hp : priceFrom v = some p) : 0 < p ∧ p < 10000 := by
  cases v with
  | absent => simp [priceFrom, is_valid_price] at hp
  | text s => simp [priceFrom, is_valid_price] at hp
  | num n =>
    by_cases hn : is_valid_price (Cell.num n) = true
    · unfold priceFrom at hp
      rw [if_pos hn] at hp
      simp [convert_date_to_price, is_date_value] at hp
      simp [is_valid_price] at hn
      omega
    · unfold priceFrom at hp; rw [if_neg hn] at hp; cases hp
  | date d =>
    by_cases hd : is_valid_price (Cell.date d) = true
    · have hlt : dateLt d anchorDate = true := by
        simp only [is_valid_price] at hd
        by_cases hl : dateLt d anchorDate = true
        · exact hl
        · rw [if_neg hl] at hd; cases hd
      unfold priceFrom at hp
      rw [if_pos hd] at hp
      simp [convert_date_to_price, is_date_value, dateOf, hlt] at hp
      have h31 := daysInMonth_le_31 d.year d.month
      simp only [cellValid, validDate, Bool.and_eq_true, decide_eq_true_eq] at hv
      omega
    · unfold priceFrom at hp; rw [if_neg hd] at hp; cases hp

theorem firstPrice_cases (a b : Cell) (p : Int) (h : firstPrice a b = some p) :
    priceFrom a = some p ∨ priceFrom b = some p := by
  unfold firstPrice at h
  cases ha : priceFrom a with
  | some q => rw [ha] at h; cases h; exact Or.inl rfl
  | none => rw [ha] at h; exact Or.inr h

theorem rowRecords_price (person : String) (cd : Date) (r : Row) (rec : RawRecord)
    (hm : rec ∈ rowRecords person cd r) :
    priceFrom r.b = some rec.price ∨ priceFrom r.c = some rec.price
      ∨ priceFrom r.e = some rec.price ∨ priceFrom r.f = some rec.price
      ∨ priceFrom r.g = some rec.price ∨ priceFrom r.h = some rec.price := by
  unfold rowRecords at hm
  rcases List.mem_append.mp hm with hm3 | h4
  · rcases List.mem_append.mp hm3 with hm2 | h3
    · rcases List.mem_append.mp hm2 with h1 | h2
      · by_cases hc : (truthy r.a && is_pedal_name r.a) = true
        · rw [if_pos hc] at h1
          cases hfp : firstPrice r.b r.c with
          | some p =>
            rw [hfp] at h1
            cases h1 with
            | head =>
              rcases firstPrice_cases r.b r.c p hfp with h | h
              · exact Or.inl h
              · exact Or.inr (Or.inl h)
            | tail _ htl => cases htl
          | none => rw [hfp] at h1; cases h1
        · rw [if_neg hc] at h1; cases h1
      · by_cases hc : (truthy r.d && is_pedal_name r.d) = true
        · rw [if_pos hc] at h2
          cases hfp : firstPrice r.e r.f with
          | some p =>
            rw [hfp] at h2
            cases h2 with
            | head =>
              rcases firstPrice_cases r.e r.f p hfp with h | h
              · exact Or.inr (Or.inr (Or.inl h))
              · exact Or.inr (Or.inr (Or.inr (Or.inl h)))
            | tail _ htl => cases htl
          | none => rw [hfp] at h2; cases h2
        · rw [if_neg hc] at h2; cases h2
    · by_cases hc : (truthy r.f && is_pedal_name r.f) = true
      · rw [if_pos hc] at h3
        cases hfp : priceFrom r.g with
        | some p =>
          rw [hfp] at h3
          cases h3 with
          | head => exact Or.inr (Or.inr (Or.inr (Or.inr (Or.inl rfl))))
          | tail _ htl => cases htl
        | none => rw [hfp] at h3; cases h3
      · rw [if_neg hc] at h3; cases h3
  · by_cases hc : truthy r.h = true
    · rw [if_pos hc] at h4
      cases hfp : priceFrom r.h with
      | some p =>
        rw [hfp] at h4
        have h4' : rec ∈ (if (truthy r.a && is_pedal_name r.a) = true then
            [(⟨person, pyStrip (cellStr r.a), p, cd⟩ : RawRecord)]
          else if (truthy r.d && is_pedal_name r.d) = true then
            [(⟨person, pyStrip (cellStr r.d), p, cd⟩ : RawRecord)]
          else []) := h4
        by_cases ha : (truthy r.a && is_pedal_name r.a) = true
        · rw [if_pos ha] at h4'
          cases h4' with
          | head => exact Or.inr (Or.inr (Or.inr (Or.inr (Or.inr rfl))))
          | tail _ htl => cases htl
        · rw [if_neg ha] at h4'
          by_cases hdd : (truthy r.d && is_pedal_name r.d) = true
          · rw [if_pos hdd] at h4'
            cases h4' with
            | head => exact Or.inr (Or.inr (Or.inr (Or.inr (Or.inr rfl))))
            | tail _ htl => cases htl
          · rw [if_neg hdd] at h4'; cases h4'
      | none => rw [hfp] at h4; cases h4
    · rw [if_neg hc] at h4; cases h4

theorem processRow_records (s : ScanState) (r : Row) :
    (processRow s r).records = s.records
      ∨ ∃ cd : Date, (processRow s r).records
          = s.records ++ rowRecords (personOr s.current_person) cd r := by
  unfold processRow
  by_cases h1 : ((truthy r.a && is_person_name_simple r.a) && hasValidDate r.b) = true
  · rw [if_pos h1]; exact Or.inl rfl
  rw [if_neg h1]
  by_cases h2 : (truthy r.a && is_person_name_simple r.a) = true
  · rw [if_pos h2]; exact Or.inl rfl
  · rw [if_neg h2]
    exact Or.inr ⟨_, rfl⟩

theorem rowRecords_bounds (person : String) (cd : Date) (r : Row)
    (hr : rowValid r = true) (rec : RawRecord) (hm : rec ∈ rowRecords person cd r) :
    0 < rec.price ∧ rec.price < 10000 := by
  simp only [rowValid, Bool.and_eq_true] at hr
  rcases rowRecords_price person cd r rec hm with h | h | h | h | h | h
  · exact priceFrom_bounds r.b hr.1.1.1.1.1.1.2 rec.price h
  · exact priceFrom_bounds r.c hr.1.1.1.1.1.2 rec.price h
  · exact priceFrom_bounds r.e hr.1.1.1.2 rec.price h
  · exact priceFrom_bounds r.f hr.1.1.2 rec.price h
  · exact priceFrom_bounds r.g hr.1.2 rec.price h
  · exact priceFrom_bounds r.h hr.2 rec.price h

theorem scan_records_bounds (rows : List Row) : ∀ s : ScanState,
    gridValid rows = true →
    (∀ rec ∈ s.records, 0 < rec.price ∧ rec.price < 10000) →
    ∀ rec ∈ (scanRows s rows).records, 0 < rec.price ∧ rec.price < 10000 := by
  induction rows with
  | nil => intro s _ hs rec hrec; exact hs rec hrec
  | cons r t ih =>
    intro s hg hs rec hrec
    have hg' : rowValid r = true ∧ gridValid t = true := by
      simpa [gridValid] using hg
    refine ih (processRow s r) hg'.2 ?_ rec hrec
    intro rec' hrec'
    rcases processRow_records s r with he | ⟨cd, he⟩
    · rw [he] at hrec'; exact hs rec' hrec'
    · rw [he] at hrec'
      rcases List.mem_append.mp hrec' with hmem | hmem
      · exact hs rec' hmem
      · exact rowRecords_bounds (personOr s.current_person) cd r hg'.1 rec' hmem

/-! Claim theorems. -/

/-- C1: the spec requires that a scan extracting zero records completes
without raising and yields an empty output sequence.  The code instead
reaches `df['date']` on a column-less empty DataFrame and raises
`KeyError`: the embedding returns `none` (the raising path) on the empty
grid and on a grid whose rows yield no records, never an empty `some`. -/
theorem clean_spreadsheet_raises_on_zero_records :
    (scanRows initialState []).records = []
    ∧ clean_spreadsheet [] = none
    ∧ (scanRows initialState [{ a := Cell.text "Total" }]).records = []
    ∧ clean_spreadsheet [{ a := Cell.text "Total" }] = none := by
  decide

/-- C2: the two-row grid (person header "Mike Jones" dated 2025-07-25,
then "Tube Screamer" at 120) produces exactly one output record with
price 120, date `2025-07-25` and expiration `2026-07-25`. -/
theorem clean_spreadsheet_two_row_example :
    clean_spreadsheet
      [{ a := Cell.text "Mike Jones", b := Cell.date ⟨2025, 7, 25⟩ },
       { a := Cell.text "Tube Screamer", b := Cell.num 120 }] =
      some [⟨"Tube Screamer", 120, "2025-07-25", "2026-07-25"⟩] := by
  decide

/-- C3: `is_valid_price` is false on an absent cell; on a date-like cell
it is true exactly when the date is strictly before the anchor
2025-07-24; on a numeric cell exactly when `0 < v < 10000`; and false on
every text cell. -/
theorem is_valid_price_characterization :
    is_valid_price Cell.absent = false
    ∧ (∀ d : Date, is_valid_price (Cell.date d) = dateLt d anchorDate)
    ∧ (∀ n : Int, is_valid_price (Cell.num n) =
        (decide (0 < n) && decide (n < 10000)))
    ∧ (∀ s : String, is_valid_price (Cell.text s) = false) := by
  refine ⟨rfl, fun d => ?_, fun n => rfl, fun s => rfl⟩
  simp only [is_valid_price]
  cases dateLt d anchorDate <;> simp

/-- C4: `convert_date_to_price` maps a date-like value strictly before
the anchor to its day-of-month (1900-03-20 to 20, 2024-11-05 to 5) and
returns every other value unchanged. -/
theorem convert_date_to_price_characterization :
    (∀ d : Date, dateLt d anchorDate = true →
        convert_date_to_price (Cell.date d) = Cell.num d.day)
    ∧ (∀ d : Date, dateLt d anchorDate = false →
        convert_date_to_price (Cell.date d) = Cell.date d)
    ∧ (∀ v : Cell, is_date_value v = false → convert_date_to_price v = v)
    ∧ convert_date_to_price (Cell.date ⟨1900, 3, 20⟩) = Cell.num 20
    ∧ convert_date_to_price (Cell.date ⟨2024, 11, 5⟩) = Cell.num 5 := by
  refine ⟨fun d h => ?_, fun d h => ?_, fun v h => ?_, by decide, by decide⟩
  · simp [convert_date_to_price, is_date_value, dateOf, h]
  · simp [convert_date_to_price, is_date_value, dateOf, h]
  · simp [convert_date_to_price, h]

theorem convert_date_to_price_characterization_witness :
    convert_date_to_price (Cell.date ⟨1900, 3, 20⟩) = Cell.num 20
    ∧ convert_date_to_price (Cell.date ⟨2025, 8, 1⟩) = Cell.date ⟨2025, 8, 1⟩
    ∧ convert_date_to_price (Cell.num 42) = Cell.num 42 :=
  ⟨convert_date_to_price_characterization.1 ⟨1900, 3, 20⟩ (by decide),
   convert_date_to_price_characterization.2.1 ⟨2025, 8, 1⟩ (by decide),
   convert_date_to_price_characterization.2.2.1 (Cell.num 42) (by decide)⟩

/-- C9: a cell accepted by `is_valid_price` always recovers to a numeric
value, so the post-recovery "still a date" discard branches can never
fire: `priceFrom` yields that number. -/
theorem valid_price_recovers_numeric :
    ∀ v : Cell, is_valid_price v = true →
      ∃ n : Int, convert_date_to_price v = Cell.num n ∧ priceFrom v = some n := by
  intro v h
  cases v with
  | absent => simp [is_valid_price] at h
  | text s => simp [is_valid_price] at h
  | num n =>
    refine ⟨n, ?_, ?_⟩
    · simp [convert_date_to_price, is_date_value]
    · simp [priceFrom, h, convert_date_to_price, is_date_value]
  | date d =>
    have hd : dateLt d anchorDate = true := by
      simp only [is_valid_price] at h
      cases hlt : dateLt d anchorDate with
      | true => rfl
      | false => rw [hlt] at h; simp at h
    refine ⟨d.day, ?_, ?_⟩
    · simp [convert_date_to_price, is_date_value, dateOf, hd]
    · simp [priceFrom, h, convert_date_to_price, is_date_value, dateOf, hd]

theorem valid_price_recovers_numeric_witness :
    (∃ n : Int, convert_date_to_price (Cell.num 120) = Cell.num n
        ∧ priceFrom (Cell.num 120) = some n)
    ∧ (∃ n : Int, convert_date_to_price (Cell.date ⟨1900, 3, 20⟩) = Cell.num n
        ∧ priceFrom (Cell.date ⟨1900, 3, 20⟩) = some n) :=
  ⟨valid_price_recovers_numeric (Cell.num 120) (by decide),
   valid_price_recovers_numeric (Cell.date ⟨1900, 3, 20⟩) (by decide)⟩


/-- C5: the cascaded heuristic agrees everywhere with the flat
conjunction `person_name_spec` — in particular it accepts only when the
first word is a known first name, and the brand-modifier denylist never
decides the outcome; with the three cited examples. -/
theorem is_person_name_simple_characterization :
    (∀ v : Cell, is_person_name_simple v = person_name_spec v)
    ∧ is_person_name_simple (Cell.text "John Smith") = true
    ∧ is_person_name_simple (Cell.text "Neunaber: Illumine") = false
    ∧ is_person_name_simple (Cell.text "MXR Micro Amp") = false := by
  refine ⟨fun v => ?_, by decide, by decide, by decide⟩
  cases v with
  | absent => rfl
  | num n => rfl
  | date d => rfl
  | text s0 =>
    simp only [is_person_name_simple, person_name_spec]
    generalize pyStrip s0 = s
    by_cases h1 : s.length < 5
    · rw [if_pos h1]
      have e : decide (5 ≤ s.length) = false := decide_eq_false (by omega)
      simp only [e, Bool.false_and]
    rw [if_neg h1]
    by_cases h2 : endsWithDot s = true
    · rw [if_pos h2]
      simp only [h2, Bool.not_true, Bool.and_false, Bool.false_and]
    rw [if_neg h2]
    by_cases h3 : s.toList.contains ':' = true
    · rw [if_pos h3]
      simp only [h3, Bool.not_true, Bool.and_false, Bool.false_and]
    rw [if_neg h3]
    by_cases h4 : hasAnyKeyword (pyLower s) person_skip_keywords = true
    · rw [if_pos h4]
      simp only [h4, Bool.not_true, Bool.and_false, Bool.false_and]
    rw [if_neg h4]
    by_cases h5 : (decide ((pySplit s).length < 2) || decide ((pySplit s).length > 4)) = true
    · rw [if_pos h5]
      cases hd : decide ((pySplit s).length < 2) with
      | true =>
        have hlt := of_decide_eq_true hd
        have e : decide (2 ≤ (pySplit s).length) = false := decide_eq_false (by omega)
        simp only [e, Bool.and_false, Bool.false_and]
      | false =>
        rw [hd] at h5
        have hgt := of_decide_eq_true (by simpa using h5 :
          decide ((pySplit s).length > 4) = true)
        have e : decide ((pySplit s).length ≤ 4) = false := decide_eq_false (by omega)
        simp only [e, Bool.and_false, Bool.false_and]
    rw [if_neg h5]
    by_cases h6 : (!(pySplit s).all startsUpper) = true
    · rw [if_pos h6]
      have e : (pySplit s).all startsUpper = false := by
        revert h6; cases (pySplit s).all startsUpper <;> simp
      simp only [e, Bool.and_false, Bool.false_and]
    rw [if_neg h6]
    by_cases h7 : hasDigit s = true
    · rw [if_pos h7]
      simp only [h7, Bool.not_true, Bool.and_false, Bool.false_and]
    rw [if_neg h7]
    by_cases h8 : s.length > 60
    · rw [if_pos h8]
      have e : decide (s.length ≤ 60) = false := decide_eq_false (by omega)
      simp only [e, Bool.and_false, Bool.false_and]
    rw [if_neg h8]
    by_cases h9 : common_first_names.contains (pyLower ((pySplit s).headD "")) = true
    · rw [if_pos h9]
      have e1 : decide (5 ≤ s.length) = true := decide_eq_true (by omega)
      have e2 : decide (s.length ≤ 60) = true := decide_eq_true (by omega)
      have e3 : endsWithDot s = false := bool_eq_false h2
      have e4 : s.toList.contains ':' = false := bool_eq_false h3
      have e5 : hasAnyKeyword (pyLower s) person_skip_keywords = false := bool_eq_false h4
      have h5' := bool_eq_false h5
      have hw1 : decide ((pySplit s).length < 2) = false := by
        revert h5'; cases decide ((pySplit s).length < 2) <;> simp
      have hw2 : decide ((pySplit s).length > 4) = false := by
        revert h5'; cases decide ((pySplit s).length > 4) <;> simp
      have e6 : decide (2 ≤ (pySplit s).length) = true :=
        decide_eq_true (by have := of_decide_eq_false hw1; omega)
      have e7 : decide ((pySplit s).length ≤ 4) = true :=
        decide_eq_true (by have := of_decide_eq_false hw2; omega)
      have e8 : (pySplit s).all startsUpper = true := by
        have h := bool_eq_false h6
        revert h; cases (pySplit s).all startsUpper <;> simp
      have e9 : hasDigit s = false := bool_eq_false h7
      simp only [e1, e2, e3, e4, e5, e6, e7, e8, e9, h9, Bool.not_false,
        Bool.and_true, Bool.true_and]
    rw [if_neg h9]
    have e : common_first_names.contains (pyLower ((pySplit s).headD "")) = false :=
      bool_eq_false h9
    by_cases h10 : hasAnyKeyword (pyLower s) brand_indicators = true
    · rw [if_pos h10]
      simp only [e, Bool.and_false]
    · rw [if_neg h10]
      simp only [e, Bool.and_false]

/-- C6: the pedal-name heuristic agrees everywhere with
`pedal_name_spec`: false on non-text, false under the ledger denylist,
true on a gear keyword, and otherwise true exactly when longer than 5
characters with at least one letter; with the two cited examples. -/
theorem is_pedal_name_characterization :
    (∀ v : Cell, is_pedal_name v = pedal_name_spec v)
    ∧ is_pedal_name (Cell.text "Boss DS-1 Distortion") = true
    ∧ is_pedal_name (Cell.text "Total") = false := by
  refine ⟨fun v => ?_, by decide, by decide⟩
  cases v with
  | absent => rfl
  | num n => rfl
  | date d => rfl
  | text s =>
    simp only [is_pedal_name, pedal_name_spec]
    by_cases hA : hasAnyKeyword (pyLower s) pedal_skip_keywords = true
    · rw [if_pos hA]
      simp only [hA, Bool.not_true, Bool.false_and]
    rw [if_neg hA]
    have hA' := bool_eq_false hA
    by_cases hB : hasAnyKeyword (pyLower s) pedal_indicators = true
    · rw [if_pos hB]
      simp only [hA', hB, Bool.not_false, Bool.true_and, Bool.true_or]
    rw [if_neg hB]
    have hB' := bool_eq_false hB
    by_cases hC : (decide (s.length > 5) && hasAlpha s) = true
    · rw [if_pos hC]
      simp only [hA', hB', hC, Bool.not_false, Bool.true_and, Bool.false_or]
    · rw [if_neg hC]
      have hC' := bool_eq_false hC
      simp only [hA', hB', hC', Bool.not_false, Bool.true_and, Bool.false_or]

/-- C7: when the column-A cell passes the person heuristic the scanner
commits the stripped cell as the current person and emits no records;
column B decides whether both dates advance (date ≥ anchor) or the
current date falls back to the last valid one; and a committed person is
never cleared by any later row. -/
theorem person_row_transition :
    (∀ (s : ScanState) (r : Row), is_person_name_simple r.a = true →
      (processRow s r).records = s.records
        ∧ (processRow s r).current_person = some (pyStrip (cellStr r.a))
        ∧ (hasValidDate r.b = true →
            (processRow s r).current_date = some (dateOf r.b)
              ∧ (processRow s r).last_valid_date = dateOf r.b)
        ∧ (hasValidDate r.b = false →
            (processRow s r).current_date = some s.last_valid_date
              ∧ (processRow s r).last_valid_date = s.last_valid_date))
    ∧ (∀ (s : ScanState) (rows : List Row), s.current_person.isSome = true →
        (scanRows s rows).current_person.isSome = true) :=
  ⟨person_row_commit, scanRows_keeps_person⟩

theorem person_row_transition_witness :
    (processRow initialState
        { a := Cell.text "Mike Jones", b := Cell.date ⟨2025, 7, 25⟩ }).current_person
      = some (pyStrip (cellStr (Cell.text "Mike Jones")))
    ∧ (scanRows ⟨some "Mike Jones", none, anchorDate, []⟩
        [{ a := Cell.text "Total" }]).current_person.isSome = true :=
  ⟨(person_row_transition.1 initialState
      { a := Cell.text "Mike Jones", b := Cell.date ⟨2025, 7, 25⟩ } (by decide)).2.1,
   person_row_transition.2 ⟨some "Mike Jones", none, anchorDate, []⟩
      [{ a := Cell.text "Total" }] rfl⟩

/-- C8: every record the pipeline produces renders its sale date and an
expiration date exactly 365 days later, both as `YYYY-MM-DD` text. -/
theorem expiration_365_days :
    ∀ (rows : List Row) (recs : List OutputRecord),
      clean_spreadsheet rows = some recs →
      ∀ rec ∈ recs, ∃ d : Date,
        rec.date = formatDate d
          ∧ rec.expiration_date = formatDate (addDays d 365) := by
  intro rows recs hc rec hrec
  unfold clean_spreadsheet at hc
  by_cases he : ((scanRows initialState rows).records).isEmpty = true
  · rw [if_pos he] at hc; cases hc
  · rw [if_neg he] at hc
    injection hc with hc
    subst hc
    rcases List.mem_map.mp hrec with ⟨raw, _, hmap⟩
    exact ⟨raw.date, by rw [← hmap]; rfl, by rw [← hmap]; rfl⟩

theorem expiration_365_days_witness :
    ∃ d : Date, "2025-07-25" = formatDate d
      ∧ "2026-07-25" = formatDate (addDays d 365) :=
  expiration_365_days
    [{ a := Cell.text "Mike Jones", b := Cell.date ⟨2025, 7, 25⟩ },
     { a := Cell.text "Tube Screamer", b := Cell.num 120 }]
    [⟨"Tube Screamer", 120, "2025-07-25", "2026-07-25"⟩] (by decide)
    ⟨"Tube Screamer", 120, "2025-07-25", "2026-07-25"⟩ (List.mem_singleton.mpr rfl)

/-- C10: with constructible dates in every cell, each produced record
carries a price strictly between 0 and 10000, and a price recovered from
a miscoded date is a day-of-month between 1 and 31. -/
theorem output_price_bounds :
    (∀ (rows : List Row) (recs : List OutputRecord),
        gridValid rows = true → clean_spreadsheet rows = some recs →
        ∀ rec ∈ recs, 0 < rec.price ∧ rec.price < 10000)
    ∧ (∀ d : Date, validDate d = true → dateLt d anchorDate = true →
        convert_date_to_price (Cell.date d) = Cell.num d.day
          ∧ 1 ≤ (d.day : Int) ∧ (d.day : Int) ≤ 31) := by
  constructor
  · intro rows recs hg hc rec hrec
    unfold clean_spreadsheet at hc
    by_cases he : ((scanRows initialState rows).records).isEmpty = true
    · rw [if_pos he] at hc; cases hc
    · rw [if_neg he] at hc
      injection hc with hc
      subst hc
      rcases List.mem_map.mp hrec with ⟨raw, hraw, hmap⟩
      have hb := scan_records_bounds rows initialState hg
        (by intro x hx; cases hx) raw hraw
      rw [← hmap]
      exact hb
  · intro d hv hlt
    refine ⟨by simp [convert_date_to_price, is_date_value, dateOf, hlt], ?_, ?_⟩
    · simp only [validDate, Bool.and_eq_true, decide_eq_true_eq] at hv
      omega
    · simp only [validDate, Bool.and_eq_true, decide_eq_true_eq] at hv
      have := daysInMonth_le_31 d.year d.month
      omega

theorem output_price_bounds_witness :
    (0 < (120 : Int) ∧ (120 : Int) < 10000)
    ∧ (convert_date_to_price (Cell.date ⟨1900, 3, 20⟩)
          = Cell.num ((⟨1900, 3, 20⟩ : Date).day)
        ∧ 1 ≤ (((⟨1900, 3, 20⟩ : Date).day : Int))
        ∧ (((⟨1900, 3, 20⟩ : Date).day : Int)) ≤ 31) :=
  ⟨output_price_bounds.1
      [{ a := Cell.text "Mike Jones", b := Cell.date ⟨2025, 7, 25⟩ },
       { a := Cell.text "Tube Screamer", b := Cell.num 120 }]
      [⟨"Tube Screamer", 120, "2025-07-25", "2026-07-25"⟩] (by decide) (by decide)
      ⟨"Tube Screamer", 120, "2025-07-25", "2026-07-25"⟩ (List.mem_singleton.mpr rfl),
   output_price_bounds.2 ⟨1900, 3, 20⟩ (by decide) (by decide)⟩
